import Mathlib

/-!
Shallow embedding of the server actions in `src/app/_lib/actions.ts` of the
Project-Shard repository (a GUI for local LLMs with a RAG ingestion pipeline).

The database tables (`Prompts`, `Settings`, `Documents`, embeddings) are
modelled as explicit state; external collaborators (the filesystem, the PDF
and Word parsers, the chunker, the embedder, the bulk-insert helper and the
database driver) are modelled as oracles that either return a value or fail
with an error message, mirroring the promise rejections of the TypeScript
code.  Thrown JavaScript errors are modelled as `Except String` /
`Option String` results carrying the thrown message.
-/

/-- JavaScript `String.prototype.slice(0, n)`: the first `n` code units of a
string (the whole string when it is shorter).  Used by `addNewPrompt` and
`updateSettings` to truncate form fields before insert. -/
def jsSlice (s : String) (n : Nat) : String :=
  ⟨s.data.take n⟩

/-- A row of the `Prompts` table: serial `id`, `title`, `content`. -/
structure Prompt where
  id : Nat
  title : String
  content : String
deriving DecidableEq, Repr

/-- A row of the `Settings` table.  Both form fields reach the insert through
optional chaining (`formData.get(k)?.slice(...)`), so they are nullable. -/
structure SettingsRow where
  username : Option String
  system : Option String
deriving DecidableEq, Repr

/-- A row of the `Documents` table: serial `id`, `name`, `size`, `extension`
and a `createdAt` timestamp assigned at insert. -/
structure Document where
  id : Nat
  name : String
  size : Nat
  extension : String
  createdAt : Nat
deriving DecidableEq, Repr

/-- A row of the embeddings table, as produced by `bulkInsertEmbeddings`:
chunk text, its vector, and the owning document id. -/
structure EmbChunk where
  chunk : String
  embedding : List Int
  documentId : Nat
deriving DecidableEq, Repr

/-- An uploaded browser `File`: its `name`, its `size`, and its raw content
(the byte buffer, abstracted as a string). -/
structure UpFile where
  name : String
  size : Nat
  content : String
deriving DecidableEq, Repr

/-- GET ALL PROMPTS (`getAllPrompts`): `db.select().from(Prompts)` inside
try/catch; a database failure (oracle `dbErr = some e`) is caught and
re-thrown as the coarse error message. -/
def getAllPrompts (dbErr : Option String) (prompts : List Prompt) :
    Except String (List Prompt) :=
  match dbErr with
  | some _ => .error "Error fetching prompts"
  | none => .ok prompts

/-- The two form fields read by `addNewPrompt` via `formData.get`. -/
structure PromptForm where
  prompt : Option String
  title : Option String
deriving DecidableEq, Repr

/-- JavaScript falsiness of a `formData.get` result: `null` or the empty
string. -/
def formFieldFalsy (v : Option String) : Bool :=
  match v with
  | none => true
  | some s => s = ""

/-- ADD NEW PROMPT (`addNewPrompt`): reject falsy fields with
`Invalid form data` (outside the try block), then insert the truncated
title (150) and content (1000); a database failure is caught and re-thrown
as `Error adding new prompt`. -/
def addNewPrompt (dbErr : Option String) (form : PromptForm)
    (prompts : List Prompt) (nextId : Nat) : Except String (List Prompt) :=
  if formFieldFalsy form.prompt ∨ formFieldFalsy form.title then
    .error "Invalid form data"
  else
    match form.prompt, form.title with
    | some prompt, some title =>
      match dbErr with
      | some _ => .error "Error adding new prompt"
      | none =>
        .ok (prompts ++
          [{ id := nextId, title := jsSlice title 150,
             content := jsSlice prompt 1000 }])
    | _, _ => .error "Invalid form data"

/-- DELETE PROMPT (`deletePrompt`): `db.delete(Prompts).where(eq(Prompts.id,
id))` inside try/catch. -/
def deletePrompt (dbErr : Option String) (id : Nat) (prompts : List Prompt) :
    Except String (List Prompt) :=
  match dbErr with
  | some _ => .error "Error deleting prompt"
  | none => .ok (prompts.filter (fun p => p.id ≠ id))

/-- GET ALL SETTINGS (`getAllSettings`): `db.select().from(Settings).limit(1)`
then array destructuring of the first element; on an empty table the
destructured value is `undefined` (`none`) and is returned as-is. -/
def getAllSettings (dbErr : Option String) (rows : List SettingsRow) :
    Except String (Option SettingsRow) :=
  match dbErr with
  | some _ => .error "Error fetching settings"
  | none => .ok (rows.take 1).head?

/-- The two form fields read by `updateSettings`. -/
structure SettingsForm where
  username : Option String
  system : Option String
deriving DecidableEq, Repr

/-- Failure oracle for the three database operations `updateSettings` may
perform: the initial select, the delete, and the insert. -/
structure SettingsDbOracle where
  selectErr : Option String
  deleteErr : Option String
  insertErr : Option String
deriving DecidableEq, Repr

/-- The row `updateSettings` inserts: each field is truncated by optional
chaining (`?.slice(0, n)`), `username` to 100 and `system` to 1000. -/
def settingsRowOf (form : SettingsForm) : SettingsRow :=
  { username := form.username.map (fun s => jsSlice s 100)
    system := form.system.map (fun s => jsSlice s 1000) }

/-- UPDATE SETTINGS (`updateSettings`): select all rows; when the table is
empty, insert the new row; otherwise delete all rows and insert the new row.
Any database failure is caught and re-thrown as `Error updating settings`;
the state component records the rows actually persisted at that point (a
delete that succeeded before a failing insert is not rolled back). -/
def updateSettings (o : SettingsDbOracle) (form : SettingsForm)
    (rows : List SettingsRow) : Except String Unit × List SettingsRow :=
  match o.selectErr with
  | some _ => (.error "Error updating settings", rows)
  | none =>
    if rows.length = 0 then
      match o.insertErr with
      | some _ => (.error "Error updating settings", rows)
      | none => (.ok (), [settingsRowOf form])
    else
      match o.deleteErr with
      | some _ => (.error "Error updating settings", rows)
      | none =>
        match o.insertErr with
        | some _ => (.error "Error updating settings", [])
        | none => (.ok (), [settingsRowOf form])

/-- The allowed upload extensions checked by `uploadFile`
(the includes check on the list [".txt", ".pdf", ".docx"]). -/
def validExtensions : List String := [".txt", ".pdf", ".docx"]

/-- JavaScript `String.prototype.split(sep)` for a one-character separator,
over the character list of a string: splits at every separator, keeping empty
segments, and yields `[""]` on the empty string. -/
def jsSplit (sep : Char) : List Char → List (List Char)
  | [] => [[]]
  | c :: rest =>
    let r := jsSplit sep rest
    if c = sep then [] :: r
    else
      match r with
      | [] => [[c]]
      | seg :: rest2 => (c :: seg) :: rest2

/-- JavaScript `String.prototype.toLowerCase()` (character-wise lowering). -/
def jsToLower (s : String) : String := ⟨s.data.map Char.toLower⟩

/-- The extraction dispatch key computed by `uploadFile`:
a dot concatenated with the result of pop() on the dot-split of the file
name — that is, a dot followed by the last segment of the dot-split, with
its original case preserved. -/
def fileExtensionOf (fileName : String) : String :=
  "." ++ String.mk ((jsSplit '.' fileName.data).getLastD [])

/-- The document-side database state touched by `uploadFile`: the `Documents`
table, the embeddings table, the next serial id and the insert clock that
stamps `createdAt`. -/
structure DocDB where
  documents : List Document
  chunks : List EmbChunk
  nextId : Nat
  now : Nat
deriving DecidableEq, Repr

/-- The full state `uploadFile` can touch: the database and the local
document folder on disk (file name ↦ raw content). -/
structure UState where
  db : DocDB
  disk : List (String × String)
deriving DecidableEq, Repr

/-- A value thrown by a JavaScript promise rejection: an `Error` carrying a
message, or a non-`Error` value. -/
inductive JsThrown where
  | jsError (msg : String)
  | nonError
deriving DecidableEq, Repr

/-- The outer catch of `uploadFile` (source lines 194-199): an `Error` is
re-thrown with its message unchanged; any other thrown value is re-thrown as
the generic upload error. -/
def outerMessage : JsThrown → String
  | .jsError msg => msg
  | .nonError => "Error uploading file"

/-- External collaborators of `uploadFile`, as oracles: the
`SAVE_RAW_DOCUMENT_LOCAL` flag, the `fs.mkdir`/`fs.writeFile` pair, the three
text extractors (`file.text()`, `pdf-parse`, `mammoth`), the chunker
`chunkUpText`, the embedder `generateEmbedding`, the success of
`bulkInsertEmbeddings`, and the three awaited steps that sit inside the
outer try block only — the duplicate-check select (source lines 122-125),
the metadata insert (lines 132-139) and `file.arrayBuffer()` (line 142) —
whose rejections reach the outer catch directly and are re-thrown there via
`outerMessage`.  Each fallible collaborator returns a value or fails. -/
structure UploadEnv where
  saveRawDocumentLocal : Bool
  mkdirWriteOk : Bool
  fileText : String → Except String String
  pdfParse : String → Except String String
  mammothExtract : String → Except String String
  chunkUpText : String → Except String (List String)
  generateEmbedding : List String → Except String (List (List Int))
  bulkInsertOk : Bool
  selectErr : Option JsThrown
  insertErr : Option JsThrown
  bufferErr : Option JsThrown

/-- The `switch (fileExtension)` of `uploadFile`: dispatch the raw content to
the extractor selected by the extension.  With no matching case the switch
falls through and `extractedRawText` keeps its initial empty value. -/
def extractRawText (env : UploadEnv) (ext : String) (content : String) :
    Except String String :=
  if ext = ".txt" then env.fileText content
  else if ext = ".pdf" then env.pdfParse content
  else if ext = ".docx" then env.mammothExtract content
  else .ok ""

/-- The document row `uploadFile` inserts in step 3 for file `f` in state
`s`: next serial id, the name and size of the file, the computed extension, and
the insert-time `createdAt` stamp. -/
def createdDocumentOf (f : UpFile) (s : UState) : Document :=
  { id := s.db.nextId, name := f.name, size := f.size,
    extension := fileExtensionOf f.name, createdAt := s.db.now }

/-- The state right after the metadata insert of `uploadFile` (step 3): the
created document row is appended, the serial id and clock advance, and
nothing else changes. -/
def afterInsert (f : UpFile) (s : UState) : UState :=
  { s with db :=
    { s.db with
      documents := s.db.documents ++ [createdDocumentOf f s]
      nextId := s.db.nextId + 1
      now := s.db.now + 1 } }

/-- The inner try block of `uploadFile` (source lines 160-193): extract the
raw text by extension, chunk it (`chunkUpText`), embed the chunks
(`generateEmbedding`), and bulk-insert (chunk, vector, documentId) rows
(`bulkInsertEmbeddings`); any failure inside the block is caught and
re-thrown as `Error embedding document`, leaving the state as it was when
the block started. -/
def ingestPipeline (env : UploadEnv) (file : UpFile) (docId : Nat)
    (s2 : UState) : Option String × UState :=
  match extractRawText env (fileExtensionOf file.name) file.content with
  | .error _ => (some "Error embedding document", s2)
  | .ok extractedRawText =>
    match env.chunkUpText extractedRawText with
    | .error _ => (some "Error embedding document", s2)
    | .ok chunkedText =>
      match env.generateEmbedding chunkedText with
      | .error _ => (some "Error embedding document", s2)
      | .ok embeddings =>
        if ¬ env.bulkInsertOk then
          (some "Error embedding document", s2)
        else
          (none,
            { s2 with db :=
              { s2.db with chunks := s2.db.chunks ++
                ((chunkedText.zip embeddings).map
                  (fun p => { chunk := p.1, embedding := p.2,
                              documentId := docId })) } })

/-- The tail of `uploadFile` after the metadata insert (source lines
145-193): optionally write the raw file into the document folder — an
`fs.mkdir`/`fs.writeFile` failure is caught and re-thrown as
`Error writing file locally` — then run the inner ingestion block. -/
def saveThenIngest (env : UploadEnv) (file : UpFile) (docId : Nat)
    (s1 : UState) : Option String × UState :=
  if env.saveRawDocumentLocal ∧ ¬ env.mkdirWriteOk then
    (some "Error writing file locally", s1)
  else
    let s2 : UState :=
      if env.saveRawDocumentLocal then
        { s1 with disk := s1.disk ++ [(file.name, file.content)] }
      else s1
    ingestPipeline env file docId s2

/-- UPLOAD FILE (`uploadFile`).  Returns the thrown error message (`none` on
success) together with the state after the call.  Mirrors the source step by
step: missing-file check; extension validation; duplicate-name select (whose
own rejection reaches the outer catch) and lookup; metadata insert
(`returning` the created document, here `createdDocumentOf` with post-state
`afterInsert`; a rejected insert persists nothing); `file.arrayBuffer()`
(rejecting after the row is created); then the optional raw save and the
inner ingestion block (`saveThenIngest`).  The outer catch re-throws the
message of the caught error unchanged, and the generic upload message for a
non-`Error` thrown value (`outerMessage`). -/
def uploadFile (env : UploadEnv) (file? : Option UpFile) (s : UState) :
    Option String × UState :=
  match file? with
  | none => (some "No file provided", s)
  | some file =>
    if fileExtensionOf file.name ∉ validExtensions then
      (some "Invalid file type", s)
    else
      match env.selectErr with
      | some t => (some (outerMessage t), s)
      | none =>
        match s.db.documents.find? (fun d => d.name == file.name) with
        | some _ => (some "This document already exists", s)
        | none =>
          match env.insertErr with
          | some t => (some (outerMessage t), s)
          | none =>
            match env.bufferErr with
            | some t => (some (outerMessage t), afterInsert file s)
            | none =>
              saveThenIngest env file (createdDocumentOf file s).id
                (afterInsert file s)

/-- GET ALL DOCUMENTS (`getAllDocuments`):
`db.select().from(Documents).orderBy(desc(Documents.createdAt))` inside
try/catch.  The `ORDER BY createdAt DESC` of the database is modelled as a
sort by descending `createdAt`. -/
def docDescOrder (a b : Document) : Prop :=
  b.createdAt ≤ a.createdAt

instance : DecidableRel docDescOrder :=
  fun a b => Nat.decLe b.createdAt a.createdAt

instance : IsTotal Document docDescOrder :=
  ⟨fun a b => Nat.le_total b.createdAt a.createdAt⟩

instance : IsTrans Document docDescOrder :=
  ⟨fun _ _ _ hab hbc => Nat.le_trans hbc hab⟩

/-- GET ALL DOCUMENTS, continued: the action itself. -/
def getAllDocuments (dbErr : Option String) (docs : List Document) :
    Except String (List Document) :=
  match dbErr with
  | some _ => .error "Error fetching documents"
  | none => .ok (docs.insertionSort docDescOrder)

/-- The closed set of error messages `uploadFile` can throw. -/
def uploadMessages : List String :=
  ["No file provided", "Invalid file type", "This document already exists",
   "Error writing file locally", "Error embedding document"]

/-- Store invariant maintained by `uploadFile`: the name of every stored document
has one of the allowed extensions (a document row is only ever created after
the extension check passed on that same name). -/
def docNamesValid (db : DocDB) : Prop :=
  ∀ d ∈ db.documents, fileExtensionOf d.name ∈ validExtensions

/-- Condition under which the inner try block of `uploadFile` (extraction →
chunking → embedding → bulk insert) fails for a given environment and file. -/
def pipelineFails (env : UploadEnv) (f : UpFile) : Prop :=
  match extractRawText env (fileExtensionOf f.name) f.content with
  | .error _ => True
  | .ok t =>
    match env.chunkUpText t with
    | .error _ => True
    | .ok cs =>
      match env.generateEmbedding cs with
      | .error _ => True
      | .ok _ => env.bulkInsertOk = false

/-- Environment in which every external collaborator succeeds: raw saving is
off, extraction echoes the content, the chunker yields one chunk, the
embedder yields one vector per chunk, and the bulk insert succeeds. -/
def envOk : UploadEnv :=
  { saveRawDocumentLocal := false
    mkdirWriteOk := true
    fileText := fun c => .ok c
    pdfParse := fun _ => .ok ""
    mammothExtract := fun _ => .ok ""
    chunkUpText := fun t => .ok [t]
    generateEmbedding := fun cs => .ok (cs.map (fun _ => [0]))
    bulkInsertOk := true
    selectErr := none
    insertErr := none
    bufferErr := none }

/-- Environment identical to `envOk` except that the embedding call fails. -/
def envEmbedFail : UploadEnv :=
  { envOk with generateEmbedding := fun _ => .error "model call failed" }

/-- Environment identical to `envOk` except that the duplicate-check select
rejects with a database-driver error. -/
def envSelectFail : UploadEnv :=
  { envOk with
    selectErr := some (.jsError "connect ECONNREFUSED 127.0.0.1:5432") }

/-- Environment identical to `envOk` except that the metadata insert rejects
with a database-driver error. -/
def envInsertFail : UploadEnv :=
  { envOk with
    insertErr := some (.jsError "relation documents does not exist") }

/-- A concrete plain-text upload. -/
def fileA : UpFile := { name := "a.txt", size := 5, content := "hello" }

/-- A concrete upload whose extension is an uppercase variant of a supported
type. -/
def filePDF : UpFile := { name := "report.PDF", size := 3, content := "pdf" }

/-- A concrete upload with an unsupported extension. -/
def fileExe : UpFile := { name := "report.exe", size := 9, content := "MZ" }

/-- The empty initial state: no documents, no chunks, empty disk. -/
def emptyState : UState :=
  { db := { documents := [], chunks := [], nextId := 1, now := 0 }, disk := [] }

/-- A state whose store already holds a document named `a.txt` with one
chunk. -/
def stateWithA : UState :=
  { db :=
    { documents := [{ id := 1, name := "a.txt", size := 5,
                      extension := ".txt", createdAt := 0 }]
      chunks := [{ chunk := "hello", embedding := [0], documentId := 1 }]
      nextId := 2
      now := 1 }
    disk := [] }

/-- The oracle under which every database operation of `updateSettings`
succeeds. -/
def noFailOracle : SettingsDbOracle :=
  { selectErr := none, deleteErr := none, insertErr := none }

/-- A concrete prompt form submission. -/
def promptFormW : PromptForm :=
  { prompt := some "How do I use tools?", title := some "Tooling" }

/-- The prompt rows stored after inserting `promptFormW` into an empty
table. -/
def promptRowsW : List Prompt :=
  [{ id := 1, title := jsSlice "Tooling" 150,
     content := jsSlice "How do I use tools?" 1000 }]

/-- A concrete settings form submission. -/
def settingsFormW : SettingsForm :=
  { username := some "alice", system := some "be concise" }

/-! ## Helper lemmas -/

/-- Truncation bound for `jsSlice`. -/
theorem jsSlice_length (s : String) (n : Nat) : (jsSlice s n).length ≤ n := by
  show (s.data.take n).length ≤ n
  rw [List.length_take]
  exact Nat.min_le_left _ _

/-- The inner ingestion block either succeeds or fails with exactly the
embedding-failure message, and a failure leaves the state exactly as it
was. -/
theorem ingestPipeline_msg_cases (env : UploadEnv) (f : UpFile) (docId : Nat)
    (s2 : UState) :
    (ingestPipeline env f docId s2).1 = none ∨
      ingestPipeline env f docId s2 = (some "Error embedding document", s2) := by
  rcases h1 : extractRawText env (fileExtensionOf f.name) f.content with e | t
  · simp [ingestPipeline, h1]
  · rcases h2 : env.chunkUpText t with e | cs
    · simp [ingestPipeline, h1, h2]
    · rcases h3 : env.generateEmbedding cs with e | vs
      · simp [ingestPipeline, h1, h2, h3]
      · by_cases hb : env.bulkInsertOk <;> simp [ingestPipeline, h1, h2, h3, hb]

/-- The inner ingestion block never touches the documents table or the
disk. -/
theorem ingestPipeline_untouched (env : UploadEnv) (f : UpFile) (docId : Nat)
    (s2 : UState) :
    (ingestPipeline env f docId s2).2.db.documents = s2.db.documents ∧
      (ingestPipeline env f docId s2).2.disk = s2.disk := by
  rcases h1 : extractRawText env (fileExtensionOf f.name) f.content with e | t
  · simp [ingestPipeline, h1]
  · rcases h2 : env.chunkUpText t with e | cs
    · simp [ingestPipeline, h1, h2]
    · rcases h3 : env.generateEmbedding cs with e | vs
      · simp [ingestPipeline, h1, h2, h3]
      · by_cases hb : env.bulkInsertOk <;> simp [ingestPipeline, h1, h2, h3, hb]

/-- When its failure condition holds, the inner ingestion block fails with
the embedding-failure message and returns its starting state. -/
theorem ingestPipeline_of_fails (env : UploadEnv) (f : UpFile) (docId : Nat)
    (s2 : UState) (h : pipelineFails env f) :
    ingestPipeline env f docId s2 = (some "Error embedding document", s2) := by
  unfold pipelineFails at h
  rcases h1 : extractRawText env (fileExtensionOf f.name) f.content with e | t
  · simp [ingestPipeline, h1]
  · rw [h1] at h
    dsimp only at h
    rcases h2 : env.chunkUpText t with e | cs
    · simp [ingestPipeline, h1, h2]
    · rw [h2] at h
      dsimp only at h
      rcases h3 : env.generateEmbedding cs with e | vs
      · simp [ingestPipeline, h1, h2, h3]
      · rw [h3] at h
        dsimp only at h
        simp [ingestPipeline, h1, h2, h3, h]

/-- Stepping lemma: after the extension check passes, the select, insert
and buffer read succeed, and the duplicate lookup comes back empty,
`uploadFile` is the metadata insert followed by `saveThenIngest`. -/
theorem uploadFile_reaches_insert (env : UploadEnv) (f : UpFile) (s : UState)
    (hext : fileExtensionOf f.name ∈ validExtensions)
    (hsel : env.selectErr = none) (hins : env.insertErr = none)
    (hbuf : env.bufferErr = none)
    (hfind : s.db.documents.find? (fun d => d.name == f.name) = none) :
    uploadFile env (some f) s =
      saveThenIngest env f (createdDocumentOf f s).id (afterInsert f s) := by
  simp [uploadFile, hext, hsel, hins, hbuf, hfind]

/-- Message analysis for the post-insert phase: it succeeds, fails the local
write, or fails the ingestion block; a failure never rolls back the inserted
document row, and the chunks table is unchanged on failure. -/
theorem saveThenIngest_cases (env : UploadEnv) (f : UpFile) (docId : Nat)
    (s1 : UState) :
    (saveThenIngest env f docId s1).1 = none ∨
      ((saveThenIngest env f docId s1).1 = some "Error writing file locally" ∨
        (saveThenIngest env f docId s1).1 = some "Error embedding document") ∧
      (saveThenIngest env f docId s1).2.db.chunks = s1.db.chunks := by
  unfold saveThenIngest
  by_cases hw : env.saveRawDocumentLocal ∧ ¬ env.mkdirWriteOk
  · right
    simp [hw]
  · simp only [hw, if_false]
    rcases ingestPipeline_msg_cases env f docId
        (if env.saveRawDocumentLocal then
          { s1 with disk := s1.disk ++ [(f.name, f.content)] } else s1) with
      h | h
    · left
      by_cases hs : env.saveRawDocumentLocal <;> simp_all
    · right
      by_cases hs : env.saveRawDocumentLocal <;> simp_all

/-- The post-insert phase never touches the documents table. -/
theorem saveThenIngest_documents (env : UploadEnv) (f : UpFile) (docId : Nat)
    (s1 : UState) :
    (saveThenIngest env f docId s1).2.db.documents = s1.db.documents := by
  unfold saveThenIngest
  by_cases hw : env.saveRawDocumentLocal ∧ ¬ env.mkdirWriteOk
  · simp [hw]
  · simp only [hw, if_false]
    by_cases hs : env.saveRawDocumentLocal <;>
      simp_all [ingestPipeline_untouched]

/-- With the extension valid and the metadata-database select, metadata
insert and buffer read succeeding, `uploadFile` never reports an invalid
file type. -/
theorem uploadFile_valid_ext_not_invalid (env : UploadEnv) (f : UpFile)
    (s : UState) (hext : fileExtensionOf f.name ∈ validExtensions)
    (hsel : env.selectErr = none) (hins : env.insertErr = none)
    (hbuf : env.bufferErr = none) :
    (uploadFile env (some f) s).1 ≠ some "Invalid file type" := by
  rcases hfind : s.db.documents.find? (fun d => d.name == f.name) with _ | d
  · rw [uploadFile_reaches_insert env f s hext hsel hins hbuf hfind]
    rcases saveThenIngest_cases env f (createdDocumentOf f s).id
        (afterInsert f s) with h | ⟨h | h, _⟩ <;> simp [h]
  · simp [uploadFile, hext, hsel, hfind]

/-! ## Claim theorems -/

/-- C1: uploading a file whose name equals the name of a stored document
(with the duplicate-check select itself succeeding) fails with the
duplicate-document error and leaves the whole state (documents, chunks,
disk) unchanged, for every environment — in particular no extraction,
chunking, embedding or storage work can have any effect.  Uses the store
invariant that the name of every stored document carries a valid extension
(which `uploadFile` itself maintains, since it only inserts names that
passed the extension check). -/
theorem uploadFile_duplicate_rejected (env : UploadEnv) (f : UpFile)
    (s : UState) (hsel : env.selectErr = none) (hval : docNamesValid s.db)
    (hdup : ∃ d ∈ s.db.documents, d.name = f.name) :
    uploadFile env (some f) s = (some "This document already exists", s) := by
  obtain ⟨d, hd, hname⟩ := hdup
  have hext : fileExtensionOf f.name ∈ validExtensions := by
    rw [← hname]; exact hval d hd
  have hfind : (s.db.documents.find? (fun x => x.name == f.name)).isSome := by
    rw [List.find?_isSome]
    exact ⟨d, hd, by simp [hname]⟩
  obtain ⟨d', hd'⟩ := Option.isSome_iff_exists.mp hfind
  simp [uploadFile, hext, hsel, hd']

/-- C1 witness: a duplicate upload of `a.txt` against a store already holding
it is rejected with the store untouched. -/
theorem uploadFile_duplicate_rejected_witness :
    uploadFile envOk (some fileA) stateWithA =
      (some "This document already exists", stateWithA) := by
  apply uploadFile_duplicate_rejected
  · rfl
  · intro d hd
    simp only [stateWithA] at hd
    simp only [List.mem_singleton] at hd
    subst hd
    decide
  · exact ⟨{ id := 1, name := "a.txt", size := 5, extension := ".txt",
             createdAt := 0 }, by simp [stateWithA, fileA]⟩

/-- C2: uploading a file whose computed extension is not `.txt`, `.pdf` or
`.docx` fails with the invalid-file-type error and leaves the whole state
(documents, chunks, disk) unchanged, for every environment — no document row
is created and no other side effect happens. -/
theorem uploadFile_invalid_type_rejected (env : UploadEnv) (f : UpFile)
    (s : UState) (hext : fileExtensionOf f.name ∉ validExtensions) :
    uploadFile env (some f) s = (some "Invalid file type", s) := by
  simp [uploadFile, hext]

/-- C2 witness: uploading `report.exe` is rejected with the state
unchanged. -/
theorem uploadFile_invalid_type_rejected_witness :
    uploadFile envOk (some fileExe) emptyState =
      (some "Invalid file type", emptyState) := by
  apply uploadFile_invalid_type_rejected
  decide

/-- Helper: with the write step passing (or raw saving disabled) and the
ingestion block failing, the post-insert phase fails with the
embedding-failure message and leaves the database of its starting state
intact (only the disk may have gained the raw file). -/
theorem saveThenIngest_pipeline_fail (env : UploadEnv) (f : UpFile)
    (docId : Nat) (s1 : UState)
    (hnw : ¬ (env.saveRawDocumentLocal ∧ ¬ env.mkdirWriteOk))
    (hp : pipelineFails env f) :
    ∃ s2, saveThenIngest env f docId s1 =
        (some "Error embedding document", s2) ∧ s2.db = s1.db := by
  unfold saveThenIngest
  rw [if_neg hnw]
  by_cases hs : env.saveRawDocumentLocal
  · simp only [hs, if_true]
    exact ⟨_, ingestPipeline_of_fails env f docId _ hp, rfl⟩
  · simp only [hs, if_false]
    exact ⟨_, ingestPipeline_of_fails env f docId _ hp, rfl⟩

/-- C3: when the document row has been created (extension valid, the
metadata select, insert and buffer read succeeding, name not a duplicate)
and a later step fails, `uploadFile` throws — the local raw-file
write failing surfaces as the local-write error, and any failure in the
extraction → chunking → embedding → bulk-insert block surfaces as the
embedding-failure error — while the created document row remains in the
store and no chunk rows are added: the insert is not rolled back. -/
theorem uploadFile_partial_failure_keeps_row (env : UploadEnv) (f : UpFile)
    (s : UState) (hext : fileExtensionOf f.name ∈ validExtensions)
    (hsel : env.selectErr = none) (hins : env.insertErr = none)
    (hbuf : env.bufferErr = none)
    (hnodup : ∀ d ∈ s.db.documents, d.name ≠ f.name) :
    (env.saveRawDocumentLocal = true → env.mkdirWriteOk = false →
      uploadFile env (some f) s =
        (some "Error writing file locally", afterInsert f s)) ∧
    (¬ (env.saveRawDocumentLocal ∧ ¬ env.mkdirWriteOk) → pipelineFails env f →
      ∃ s2, uploadFile env (some f) s =
          (some "Error embedding document", s2) ∧
        s2.db.documents = s.db.documents ++ [createdDocumentOf f s] ∧
        s2.db.chunks = s.db.chunks) := by
  have hfind : s.db.documents.find? (fun d => d.name == f.name) = none := by
    rw [List.find?_eq_none]
    intro x hx
    simpa using hnodup x hx
  have hstep := uploadFile_reaches_insert env f s hext hsel hins hbuf hfind
  constructor
  · intro hs hw
    rw [hstep]
    unfold saveThenIngest
    simp [hs, hw]
  · intro hnw hp
    rw [hstep]
    obtain ⟨s2, heq, hdb⟩ :=
      saveThenIngest_pipeline_fail env f (createdDocumentOf f s).id
        (afterInsert f s) hnw hp
    refine ⟨s2, heq, ?_, ?_⟩
    · rw [hdb]; simp [afterInsert]
    · rw [hdb]; simp [afterInsert]

/-- C3 witness: a failing embedding call on a fresh `a.txt` upload leaves
the created document row in the store with no chunks. -/
theorem uploadFile_partial_failure_keeps_row_witness :
    ∃ s2, uploadFile envEmbedFail (some fileA) emptyState =
        (some "Error embedding document", s2) ∧
      s2.db.documents = emptyState.db.documents ++
        [createdDocumentOf fileA emptyState] ∧
      s2.db.chunks = emptyState.db.chunks := by
  refine (uploadFile_partial_failure_keeps_row envEmbedFail fileA emptyState
      (by decide) rfl rfl rfl ?_).2 ?_ ?_
  · intro d hd
    simp [emptyState] at hd
  · simp [envEmbedFail, envOk]
  · show pipelineFails envEmbedFail fileA
    exact trivial

/-- C4 counterexample: for the uploaded file `report.PDF` the dispatch key
computed by `uploadFile` is `.PDF` — not the lowercase `.pdf` of the
extension (lowercasing changes the key) — and the upload is rejected as an
invalid file type instead of being dispatched, so the key is not computed as
a lowercase string. -/
theorem uploadFile_dispatch_key_not_lowercase :
    fileExtensionOf "report.PDF" = ".PDF" ∧
      jsToLower (fileExtensionOf "report.PDF") = ".pdf" ∧
      fileExtensionOf "report.PDF" ≠ jsToLower (fileExtensionOf "report.PDF") ∧
      (uploadFile envOk (some filePDF) emptyState).1 =
        some "Invalid file type" := by
  refine ⟨rfl, rfl, by decide, ?_⟩
  have hext : fileExtensionOf filePDF.name ∉ validExtensions := by decide
  simp [uploadFile, hext]

/-- C4 (amended): the extraction dispatch key computed by `uploadFile` is
the extension of the file verbatim — the leading dot plus the text after the last
dot, with its original case, no lowercasing — and, with the metadata
database and buffer read succeeding (so that no external message can
coincide with the validation message), `uploadFile` rejects with the
invalid-file-type error exactly those files whose verbatim key is not one
of `.txt`, `.pdf`, `.docx` (so uppercase variants of supported extensions
are rejected too). -/
theorem uploadFile_dispatch_key_verbatim (env : UploadEnv) (f : UpFile)
    (s : UState) (hsel : env.selectErr = none) (hins : env.insertErr = none)
    (hbuf : env.bufferErr = none) :
    (uploadFile env (some f) s).1 = some "Invalid file type" ↔
      fileExtensionOf f.name ∉ validExtensions := by
  constructor
  · intro h
    by_contra hext
    exact uploadFile_valid_ext_not_invalid env f s hext hsel hins hbuf h
  · intro hext
    simp [uploadFile, hext]

/-- C4 witness: for the upload of `report.PDF` in a failure-free
environment, the amended characterization yields the invalid-file-type
rejection. -/
theorem uploadFile_dispatch_key_verbatim_witness :
    (uploadFile envOk (some filePDF) emptyState).1 =
      some "Invalid file type" :=
  (uploadFile_dispatch_key_verbatim envOk filePDF emptyState
    rfl rfl rfl).mpr (by decide)

/-- Helper for C5 and C8: every call either succeeds having appended exactly
one document row, or throws one of the five messages of `uploadMessages`,
or throws the re-thrown message of a rejected duplicate-check select,
metadata insert or buffer read. -/
theorem uploadFile_outcomes_aux (env : UploadEnv) (f? : Option UpFile)
    (s : UState) :
    ((uploadFile env f? s).1 = none ∧
      ∃ d, (uploadFile env f? s).2.db.documents = s.db.documents ++ [d]) ∨
    (uploadFile env f? s).1 ∈ uploadMessages.map some ∨
    (∃ t, (env.selectErr = some t ∨ env.insertErr = some t ∨
        env.bufferErr = some t) ∧
      (uploadFile env f? s).1 = some (outerMessage t)) := by
  cases f? with
  | none => right; left; simp [uploadFile, uploadMessages]
  | some f =>
    by_cases hext : fileExtensionOf f.name ∈ validExtensions
    · rcases hsel : env.selectErr with _ | t
      · rcases hfind : s.db.documents.find? (fun d => d.name == f.name)
            with _ | d
        · rcases hins : env.insertErr with _ | t
          · rcases hbuf : env.bufferErr with _ | t
            · rw [uploadFile_reaches_insert env f s hext hsel hins hbuf hfind]
              rcases saveThenIngest_cases env f (createdDocumentOf f s).id
                  (afterInsert f s) with h | ⟨h | h, _⟩
              · left
                refine ⟨h, createdDocumentOf f s, ?_⟩
                rw [saveThenIngest_documents]
                simp [afterInsert]
              · right; left; simp [h, uploadMessages]
              · right; left; simp [h, uploadMessages]
            · right; right
              exact ⟨t, Or.inr (Or.inr rfl),
                by simp [uploadFile, hext, hsel, hfind, hins, hbuf]⟩
          · right; right
            exact ⟨t, Or.inr (Or.inl rfl),
              by simp [uploadFile, hext, hsel, hfind, hins]⟩
        · right; left
          simp [uploadFile, hext, hsel, hfind, uploadMessages]
      · right; right
        exact ⟨t, Or.inl rfl, by simp [uploadFile, hext, hsel]⟩
    · right; left
      have hne : fileExtensionOf f.name ∉ validExtensions := hext
      simp [uploadFile, hne, uploadMessages]

/-- C5 counterexample: with the duplicate-check select rejecting with a
database-driver error, `uploadFile` neither completes nor fails with one of
the four typed failures or the missing-file rejection — the driver message
is re-thrown verbatim by the outer catch, an outcome outside the claimed
closed set. -/
theorem uploadFile_db_failure_escapes_taxonomy :
    (uploadFile envSelectFail (some fileA) emptyState).1 =
        some "connect ECONNREFUSED 127.0.0.1:5432" ∧
      (uploadFile envSelectFail (some fileA) emptyState).1 ∉
        uploadMessages.map some ∧
      (uploadFile envSelectFail (some fileA) emptyState).1 ≠ none := by
  refine ⟨by decide, by decide, by decide⟩

/-- C5 (amended): every call to `uploadFile` either completes having created
a document record (exactly one row is appended to the documents table), or
fails with one of the five typed messages — no file provided, invalid file
type, duplicate document, local write failed, or embedding (extraction /
ingestion) failed — or, when the duplicate-check select, the metadata
insert or the buffer read rejects, fails with the message of that
underlying failure re-thrown verbatim by the outer catch (the generic
upload message for a non-Error thrown value). -/
theorem uploadFile_outcome_taxonomy (env : UploadEnv) (f? : Option UpFile)
    (s : UState) :
    ((uploadFile env f? s).1 = none ∧
      ∃ d, (uploadFile env f? s).2.db.documents = s.db.documents ++ [d]) ∨
    (uploadFile env f? s).1 ∈ uploadMessages.map some ∨
    (∃ t, (env.selectErr = some t ∨ env.insertErr = some t ∨
        env.bufferErr = some t) ∧
      (uploadFile env f? s).1 = some (outerMessage t)) :=
  uploadFile_outcomes_aux env f? s

/-- C6: whenever `addNewPrompt` accepts a form and stores a row, the stored
stored title is the submitted title truncated to at most 150 characters and
its content is the submitted prompt truncated to at most 1000 characters. -/
theorem addNewPrompt_truncates (dbErr : Option String) (form : PromptForm)
    (prompts ps : List Prompt) (nextId : Nat)
    (h : addNewPrompt dbErr form prompts nextId = .ok ps) :
    ∃ t c, form.title = some t ∧ form.prompt = some c ∧
      ps = prompts ++ [{ id := nextId, title := jsSlice t 150,
                         content := jsSlice c 1000 }] ∧
      (jsSlice t 150).length ≤ 150 ∧ (jsSlice c 1000).length ≤ 1000 := by
  unfold addNewPrompt at h
  split at h
  · simp at h
  next hcond =>
    rcases form with ⟨p?, t?⟩
    rcases p? with _ | p
    · exact absurd (Or.inl (by simp [formFieldFalsy])) hcond
    rcases t? with _ | t
    · exact absurd (Or.inr (by simp [formFieldFalsy])) hcond
    rcases dbErr with _ | e
    · injection h with h2
      exact ⟨t, p, rfl, rfl, h2.symm, jsSlice_length t 150,
        jsSlice_length p 1000⟩
    · simp at h

/-- C6 witness: inserting a concrete form into an empty prompts table stores
the truncated row. -/
theorem addNewPrompt_truncates_witness :
    ∃ t c, promptFormW.title = some t ∧ promptFormW.prompt = some c ∧
      promptRowsW = [] ++ [{ id := 1, title := jsSlice t 150,
                             content := jsSlice c 1000 }] ∧
      (jsSlice t 150).length ≤ 150 ∧ (jsSlice c 1000).length ≤ 1000 :=
  addNewPrompt_truncates none promptFormW [] promptRowsW 1 rfl

/-- Helper: a single `updateSettings` call never leaves more than one row
when it starts from at most one row, whatever the oracle does. -/
theorem updateSettings_step_le (o : SettingsDbOracle) (f : SettingsForm)
    (rows : List SettingsRow) (h : rows.length ≤ 1) :
    ((updateSettings o f rows).2).length ≤ 1 := by
  unfold updateSettings
  rcases o with ⟨_ | e1, _ | e2, _ | e3⟩ <;> dsimp only <;>
    (try split) <;> simp_all

/-- Helper: with no database failure, `updateSettings` always ends with
exactly the freshly inserted row. -/
theorem updateSettings_success (f : SettingsForm) (rows : List SettingsRow) :
    updateSettings noFailOracle f rows = (.ok (), [settingsRowOf f]) := by
  unfold updateSettings noFailOracle
  dsimp only
  split <;> rfl

/-- Helper: folding failure-free `updateSettings` calls over a one-row state
keeps exactly one row. -/
theorem foldl_updateSettings_one (forms : List SettingsForm) :
    ∀ rows : List SettingsRow, rows.length = 1 →
      (forms.foldl (fun r g => (updateSettings noFailOracle g r).2)
          rows).length = 1 := by
  induction forms with
  | nil =>
    intro rows h
    simpa using h
  | cons g gs ih =>
    intro rows h
    simp only [List.foldl_cons]
    exact ih _ (by rw [updateSettings_success]; rfl)


/-- C7: the settings store holds at most one row at all times — a call of
`updateSettings` started from at most one row ends with at most one row,
whatever the database oracle does; a successful call replaces the content
with exactly the one new row; and after any non-empty sequence of
successful calls started from at most one row, exactly one row exists. -/
theorem updateSettings_single_row_invariant (o : SettingsDbOracle)
    (f : SettingsForm) (forms : List SettingsForm) (rows : List SettingsRow)
    (h : rows.length ≤ 1) :
    ((updateSettings o f rows).2).length ≤ 1 ∧
      (updateSettings noFailOracle f rows).2 = [settingsRowOf f] ∧
      (forms ≠ [] →
        (forms.foldl (fun r g => (updateSettings noFailOracle g r).2)
            rows).length = 1) := by
  refine ⟨updateSettings_step_le o f rows h, by rw [updateSettings_success], ?_⟩
  rcases forms with _ | ⟨g, gs⟩
  · intro hne
    exact absurd rfl hne
  · intro _
    simp only [List.foldl_cons]
    exact foldl_updateSettings_one gs _ (by rw [updateSettings_success]; rfl)

/-- C7 witness: one successful call on the empty store ends with exactly one
row. -/
theorem updateSettings_single_row_invariant_witness :
    ((updateSettings noFailOracle settingsFormW []).2).length ≤ 1 ∧
      (updateSettings noFailOracle settingsFormW []).2 =
        [settingsRowOf settingsFormW] ∧
      (([settingsFormW].foldl
          (fun r g => (updateSettings noFailOracle g r).2) []).length = 1) := by
  have h := updateSettings_single_row_invariant noFailOracle settingsFormW
    [settingsFormW] [] (by decide)
  exact ⟨h.1, h.2.1, h.2.2 (by simp)⟩

/-- C8 counterexample: a metadata-insert failure inside `uploadFile`
surfaces its own fine-grained database message through the outer catch —
not a coarse message from a fixed per-action set — so callers of
`uploadFile` can see the finer cause, contrary to the claim. -/
theorem uploadFile_fine_message_escapes_boundary :
    (uploadFile envInsertFail (some fileA) emptyState).1 =
        some "relation documents does not exist" ∧
      (uploadFile envInsertFail (some fileA) emptyState).1 ∉
        uploadMessages.map some := by
  refine ⟨by decide, by decide⟩

/-- C8 (amended): each call of every exported action surfaces at most one
error.  The six CRUD actions catch internal failures at their boundary and
collapse them to a fixed coarse message per action (the four read/delete
wrappers one fixed message each, `addNewPrompt` adding only the
form-validation message, `updateSettings` one fixed message), independent
of the own message of the internal failure.  `uploadFile`, whose outer
catch re-throws the caught message unchanged, surfaces either one of its
five typed messages or — for a rejected duplicate-check select, metadata
insert or buffer read — the fine-grained message of that underlying
failure, so its callers can distinguish those causes. -/
theorem actions_coarse_error_boundary (e : String) (prompts : List Prompt)
    (form : PromptForm) (nextId pid : Nat) (rows : List SettingsRow)
    (o : SettingsDbOracle) (sform : SettingsForm) (docs : List Document)
    (env : UploadEnv) (f? : Option UpFile) (s : UState) :
    getAllPrompts (some e) prompts = .error "Error fetching prompts" ∧
      addNewPrompt (some e) form prompts nextId =
        .error (if formFieldFalsy form.prompt ∨ formFieldFalsy form.title
          then "Invalid form data" else "Error adding new prompt") ∧
      deletePrompt (some e) pid prompts = .error "Error deleting prompt" ∧
      getAllSettings (some e) rows = .error "Error fetching settings" ∧
      ((updateSettings o sform rows).1 = .ok () ∨
        (updateSettings o sform rows).1 = .error "Error updating settings") ∧
      getAllDocuments (some e) docs = .error "Error fetching documents" ∧
      ((uploadFile env f? s).1 = none ∨
        (uploadFile env f? s).1 ∈ uploadMessages.map some ∨
        ∃ t, (env.selectErr = some t ∨ env.insertErr = some t ∨
            env.bufferErr = some t) ∧
          (uploadFile env f? s).1 = some (outerMessage t)) := by
  refine ⟨rfl, ?_, rfl, rfl, ?_, rfl, ?_⟩
  · by_cases hc : (formFieldFalsy form.prompt ∨ formFieldFalsy form.title : Prop)
    · simp [addNewPrompt, hc]
    · rcases form with ⟨p?, t?⟩
      rcases p? with _ | p
      · exact absurd (Or.inl (by simp [formFieldFalsy])) hc
      rcases t? with _ | t
      · exact absurd (Or.inr (by simp [formFieldFalsy])) hc
      simp [addNewPrompt, hc]
  · rcases o with ⟨_ | e1, _ | e2, _ | e3⟩ <;>
      (unfold updateSettings; dsimp only; (try split)) <;>
      first
        | (left; rfl)
        | (right; rfl)
  · rcases uploadFile_outcomes_aux env f? s with h | h | h
    · exact Or.inl h.1
    · exact Or.inr (Or.inl h)
    · exact Or.inr (Or.inr h)

/-- C9: on an empty settings table `getAllSettings` returns `undefined`
(modelled as `none`) rather than throwing — even though the TypeScript
declared return type promises a settings record, the return type in the model is
necessarily optional. -/
theorem getAllSettings_empty_returns_undefined :
    getAllSettings none [] = .ok none := rfl

/-- C10: `getAllDocuments` returns all stored document rows (a permutation
of the store) ordered by `createdAt` descending (the `createdAt` of each row
is greater than or equal to that of every later row). -/
theorem getAllDocuments_sorted_desc (docs : List Document) :
    ∃ l, getAllDocuments none docs = .ok l ∧ l.Perm docs ∧
      l.Sorted docDescOrder :=
  ⟨docs.insertionSort docDescOrder, rfl,
    List.perm_insertionSort docDescOrder docs,
    List.sorted_insertionSort docDescOrder docs⟩
